import Mathlib

/-!
Verification development for the ORB token-analysis frontend.

The definitions below are a shallow embedding of the analysis core of the
repository: the module-level cache (`getCachedData` / `setCachedData`), the
backend wallet-scoring wrapper `analyzeWalletViaBackend` (src/api.js), and the
`analyzeToken` pipeline (holder classification, the sequential wallet-scoring
loop, the iq-descending sort and the composite coin-score aggregation).

JavaScript numbers are modelled as rationals (ℚ): every numeric literal that
appears in the code (0.5, 0.3, 25, 75, …) is taken at its exact decimal value.
`Number.prototype.toFixed(f)` followed by `parseFloat` is modelled by
`jsToFixed f` (round half towards +∞ at `f` decimal digits, which is the
ECMAScript tie rule "pick the larger n"), `Math.floor` by `jsFloor`, and the
JavaScript coalescing idiom `x || d` on numbers (respectively strings) by
`jsOrQ` (respectively `jsOrS`): a number is falsy exactly when it is 0, a
string exactly when it is empty.
-/

namespace Orb

/-- Model of `Math.floor` on a rational: `x.num / x.den` is integer division
rounding towards −∞ (Lean `Int./` on a positive denominator), which agrees
with `Int.floor`. -/
def jsFloor (x : ℚ) : ℤ := x.num / x.den

/-- Model of `x.toFixed(f)` re-read with `parseFloat`: the value rounded to
`f` decimal digits, ties towards +∞. -/
def jsToFixed (f : ℕ) (x : ℚ) : ℚ := (jsFloor (x * 10 ^ f + 1 / 2) : ℚ) / 10 ^ f

/-- Model of the JavaScript idiom `v || d` for numbers: `0` (and only `0`)
is falsy. -/
def jsOrQ (v d : ℚ) : ℚ := if v = 0 then d else v

/-- Model of the JavaScript idiom `s || d` for strings: the empty string
(and only it) is falsy. -/
def jsOrS (s d : String) : String := if s = "" then d else s

/-- Longest digit run at the head of a character list, with the rest. -/
def leadingDigits : List Char → List Char × List Char
  | [] => ([], [])
  | c :: cs =>
    if c.isDigit then
      let p := leadingDigits cs
      (c :: p.1, p.2)
    else ([], c :: cs)

/-- Numeric value of a digit run. -/
def digitsVal (ds : List Char) : ℕ := ds.foldl (fun a c => a * 10 + (c.toNat - 48)) 0

/-- Model of `parseFloat(s) || 0` for the decimal strings the analysis code
produces (`"0.0"`, `toFixed` output, server-side win-rate strings): parse an
optional sign, an integer digit run and an optional fractional digit run; if
nothing numeric is found `parseFloat` yields `NaN`, which `|| 0` turns into 0. -/
def parseFloatOr0 (s : String) : ℚ :=
  let p0 : Bool × List Char :=
    match s.data with
    | '-' :: t => (true, t)
    | '+' :: t => (false, t)
    | cs => (false, cs)
  let ip := leadingDigits p0.2
  let fs : List Char :=
    match ip.2 with
    | '.' :: t => (leadingDigits t).1
    | _ => []
  if ip.1.isEmpty && fs.isEmpty then 0
  else
    let v : ℚ := (digitsVal ip.1 : ℚ) + (digitsVal fs : ℚ) / 10 ^ fs.length
    if p0.1 then -v else v

/-! ## Cache store (part_013 lines 31-55) -/

/-- One cache entry: `{ data, timestamp: Date.now() }`. -/
structure CacheEntry (α : Type) where
  data : α
  timestamp : ℚ

/-- The module-level `cache` Map, modelled extensionally. -/
def Cache (α : Type) : Type := String → Option (CacheEntry α)

/-- Source: `` getCacheKey = (type, identifier) => `${type}:${identifier}` ``. -/
def getCacheKey (type identifier : String) : String := type ++ ":" ++ identifier

/-- Source: `setCachedData` — `cache.set(key, { data, timestamp: Date.now() })`.
`now` stands for `Date.now()`. -/
def setCachedData (c : Cache α) (key : String) (d : α) (now : ℚ) : Cache α :=
  fun k => if k = key then some ⟨d, now⟩ else c k

/-- Source: `getCachedData(key, ttl)` — a missing entry yields `null`; otherwise
`age = Date.now() - cached.timestamp`; if `age > ttl` the entry is deleted and
`null` is returned; otherwise `cached.data` is returned. Returns the result
together with the possibly-updated store. -/
def getCachedData (c : Cache α) (key : String) (ttl now : ℚ) : Option α × Cache α :=
  match c key with
  | none => (none, c)
  | some e =>
    if ttl < now - e.timestamp then
      (none, fun k => if k = key then none else c k)
    else (some e.data, c)

/-- The cache-or-fetch pattern at the `analyzeToken` call sites
(part_013 lines 126-144 and 198-207): on a hit the cached payload is used and
the fetch collaborator is not invoked (`fetched = false`); on a miss the
freshly fetched value is used and written to the cache. -/
def lookupWithCache (c : Cache α) (key : String) (ttl now : ℚ) (fresh : α) :
    α × Bool × Cache α :=
  match getCachedData c key ttl now with
  | (some d, c2) => (d, false, c2)
  | (none, c2) => (fresh, true, setCachedData c2 key fresh now)

/-! ## Records and the backend wrapper (src/api.js lines 189-247) -/

/-- A holder as returned by `fetchTokenHolders`: address and raw amount. -/
structure Holder where
  address : String
  amount : ℚ
deriving DecidableEq

/-- A row of `analyzedHolders` as built in part_013. `winRate` is kept as the
string the code stores; other numeric fields hold the parsed numeric values.
The liquidity-pool literal in the source has no `tradesScore` key; that absent
field is modelled as 0 (it is never read by the aggregator). -/
structure Record where
  address : String
  iq : ℚ
  winRate : String
  trades : ℚ
  tradesScore : ℚ
  portfolio : ℚ
  pattern : String
  holdScore : ℚ
  holdingAmount : ℚ
  holdingPercent : ℚ
  firstBuyTime : Option ℚ
deriving DecidableEq

/-- The wallet fields of a successful backend JSON body (`data.data || data`).
A numeric 0 models a falsy field (missing, 0 or null), the empty string a
falsy string field, `none` a falsy `firstBuyTime`; the snake_case fallbacks
(`win_rate`, `trades_score`, `hold_score`, `first_buy_time`) are collapsed
into the one field they feed. -/
structure WalletData where
  iq : ℚ
  winRate : String
  trades : ℚ
  tradesScore : ℚ
  portfolio : ℚ
  pattern : String
  holdScore : ℚ
  firstBuyTime : Option ℚ
deriving DecidableEq

/-- What the `fetch` inside `analyzeWalletViaBackend` can come back with. -/
inductive BackendResponse where
  | rateLimited (resetsAt : ℚ) (limit : ℚ)
  | httpError (status : ℕ)
  | networkError
  | ok (data : WalletData)

/-- The object `analyzeWalletViaBackend` returns from its catch-all
(src/api.js lines 236-245). -/
def defaultErrorResult : WalletData :=
  { iq := 50, winRate := "0.0", trades := 0, tradesScore := 0, portfolio := 0,
    pattern := "ERROR", holdScore := 0, firstBuyTime := none }

/-- Result of one `analyzeWalletViaBackend` call: the returned wallet object,
plus the reset timestamp shown in the `alert` when the response was a 429. -/
structure BackendCallResult where
  result : WalletData
  alertResetAt : Option ℚ
deriving DecidableEq

/-- Source: `analyzeWalletViaBackend` (src/api.js lines 189-247). On HTTP 429
the code alerts with the provided `resets_at` and then throws — but the throw
sits inside the function's own `try`, so the catch-all at line 233 swallows it
and the function returns the default degraded object; the same catch-all
absorbs every other HTTP error and network failure. On success each field is
defaulted through `||`. The function never propagates an exception to its
caller. -/
def analyzeWalletViaBackend : BackendResponse → BackendCallResult
  | .rateLimited resetsAt _ => ⟨defaultErrorResult, some resetsAt⟩
  | .httpError _ => ⟨defaultErrorResult, none⟩
  | .networkError => ⟨defaultErrorResult, none⟩
  | .ok d =>
    ⟨{ iq := jsOrQ d.iq 50, winRate := jsOrS d.winRate "0.0",
       trades := jsOrQ d.trades 0, tradesScore := jsOrQ d.tradesScore 0,
       portfolio := jsOrQ d.portfolio 0, pattern := jsOrS d.pattern "Unknown",
       holdScore := jsOrQ d.holdScore 0, firstBuyTime := d.firstBuyTime }, none⟩

/-! ## Holder classification (part_013 lines 220-243) -/

/-- Source: `parseFloat((holder.amount / totalSupply * 100).toFixed(2))`. -/
def holdingPercentOf (totalSupply : ℚ) (h : Holder) : ℚ :=
  jsToFixed 2 (h.amount / totalSupply * 100)

/-- The synthetic liquidity-pool row pushed at part_013 lines 226-237. -/
def lpRecord (totalSupply : ℚ) (h : Holder) : Record :=
  { address := h.address, iq := 0, winRate := "0.0", trades := 0, tradesScore := 0,
    portfolio := 0, pattern := "LIQUIDITY POOL", holdScore := 0,
    holdingAmount := jsToFixed 0 h.amount,
    holdingPercent := holdingPercentOf totalSupply h, firstBuyTime := none }

/-- Source: the classification test `holdingPercent >= 25` (part_013 line 225). -/
def isLiquidityPool (totalSupply : ℚ) (h : Holder) : Bool :=
  decide ((25 : ℚ) ≤ holdingPercentOf totalSupply h)

/-- The two buckets the `forEach` at part_013 lines 223-241 fills. -/
structure Classified where
  liquidityPools : List Record
  normalWallets : List Holder
deriving DecidableEq

/-- Source: the `forEach` over `walletsToAnalyze`: each holder is pushed to
exactly one of `liquidityPools` / `normalWallets`, in input order. -/
def classifyHolders (totalSupply : ℚ) : List Holder → Classified
  | [] => ⟨[], []⟩
  | h :: rest =>
    let c := classifyHolders totalSupply rest
    if isLiquidityPool totalSupply h then
      ⟨lpRecord totalSupply h :: c.liquidityPools, c.normalWallets⟩
    else
      ⟨c.liquidityPools, h :: c.normalWallets⟩

/-! ## The sequential scoring loop (part_013 lines 245-288) -/

/-- The row pushed on a successful `analyzeWalletViaBackend` return
(part_013 lines 260-272): every field of the returned object is defaulted
once more through `||`. -/
def mkScoredRecord (totalSupply : ℚ) (h : Holder) (r : WalletData) : Record :=
  { address := h.address, iq := jsOrQ r.iq 50, winRate := jsOrS r.winRate "0.0",
    trades := jsOrQ r.trades 0, tradesScore := jsOrQ r.tradesScore 0,
    portfolio := jsOrQ r.portfolio 0, pattern := jsOrS r.pattern "Unknown",
    holdScore := jsOrQ r.holdScore 0, holdingAmount := jsToFixed 0 h.amount,
    holdingPercent := holdingPercentOf totalSupply h, firstBuyTime := r.firstBuyTime }

/-- The row pushed by the per-wallet `catch` (part_013 lines 275-286); its
object literal has no `firstBuyTime` key. -/
def degradedRecord (totalSupply : ℚ) (h : Holder) : Record :=
  { address := h.address, iq := 50, winRate := "0.0", trades := 0, tradesScore := 0,
    portfolio := 0, pattern := "ERROR", holdScore := 0,
    holdingAmount := jsToFixed 0 h.amount,
    holdingPercent := holdingPercentOf totalSupply h, firstBuyTime := none }

/-- How one loop iteration's external call can go: `analyzeWalletViaBackend`
completes with some backend response (it never throws on its own), or the
invocation itself throws before returning, landing in the per-wallet catch. -/
inductive CallOutcome where
  | resp (r : BackendResponse)
  | thrown

/-- The row the iteration appends for a given call outcome. -/
def recordForOutcome (totalSupply : ℚ) (h : Holder) : CallOutcome → Record
  | .resp r => mkScoredRecord totalSupply h (analyzeWalletViaBackend r).result
  | .thrown => degradedRecord totalSupply h

/-- An outcome that is not a successful, well-formed backend response. -/
def isFailureOutcome : CallOutcome → Bool
  | .resp (.ok _) => false
  | _ => true

/-- Source: the `for` loop at part_013 lines 245-288, started at index `i`.
At the head of each iteration `signal.aborted` is checked; if set, the loop
throws before issuing the call for that wallet and the rows accumulated so far
are discarded (first component `none`). Otherwise the call for index `i` is
issued (second component records the indices actually called) and a row is
appended. -/
def runLoop (aborted : ℕ → Bool) (outcomes : ℕ → CallOutcome) (totalSupply : ℚ) :
    ℕ → List Holder → Option (List Record) × List ℕ
  | _, [] => (some [], [])
  | i, h :: rest =>
    if aborted i then (none, [])
    else
      let res := runLoop aborted outcomes totalSupply (i + 1) rest
      (res.1.map (fun recs => recordForOutcome totalSupply h (outcomes i) :: recs),
       i :: res.2)

/-- The rows a cancellation-free pass over the wallets produces, indices
starting at `i`. -/
def scoredFrom (outcomes : ℕ → CallOutcome) (totalSupply : ℚ) :
    ℕ → List Holder → List Record
  | _, [] => []
  | i, h :: rest =>
    recordForOutcome totalSupply h (outcomes i) :: scoredFrom outcomes totalSupply (i + 1) rest

/-! ## The iq-descending sort (part_013 line 290) -/

/-- Insertion step for `analyzedHolders.sort((a, b) => b.iq - a.iq)`. -/
def insertDesc (r : Record) : List Record → List Record
  | [] => [r]
  | x :: xs => if x.iq ≤ r.iq then r :: x :: xs else x :: insertDesc r xs

/-- Source: `analyzedHolders.sort((a, b) => b.iq - a.iq)` — the combined list
reordered into non-increasing iq order. -/
def sortByIqDesc : List Record → List Record
  | [] => []
  | x :: xs => insertDesc x (sortByIqDesc xs)

/-! ## Composite coin score (part_013 lines 303-342) -/

/-- Source: `weightedIQSum += walletIQ * holdingPct` over all rows
(`parseFloat(...) || 0` is the identity on the numeric values stored here). -/
def weightedIQSum (l : List Record) : ℚ := (l.map (fun w => w.iq * w.holdingPercent)).sum

/-- Source: `totalHoldingPercent += holdingPct`. -/
def totalHoldingPercent (l : List Record) : ℚ := (l.map (fun w => w.holdingPercent)).sum

/-- Source: `totalHoldingPercent > 0 ? weightedIQSum / totalHoldingPercent : 0`. -/
def weightedAvgIQ (l : List Record) : ℚ :=
  if 0 < totalHoldingPercent l then weightedIQSum l / totalHoldingPercent l else 0

/-- Source: `walletIQComponent = weightedAvgIQ * 0.5`. -/
def walletIQComponent (l : List Record) : ℚ := weightedAvgIQ l * (1 / 2)

/-- Source: `analyzedHolders.filter(w => w.iq >= 75).length`. -/
def smartMoneyCount (l : List Record) : ℕ :=
  (l.filter (fun w => decide ((75 : ℚ) ≤ w.iq))).length

/-- Source: `(smartMoneyCount / analyzedHolders.length) * 100`. -/
def smartMoneyPercent (l : List Record) : ℚ :=
  ((smartMoneyCount l : ℚ) / (l.length : ℚ)) * 100

/-- Source: `smartMoneyComponent = smartMoneyPercent * 0.3`. -/
def smartMoneyComponent (l : List Record) : ℚ := smartMoneyPercent l * (3 / 10)

/-- Source: `analyzedHolders.filter(w => parseFloat(w.holdingPercent) > 0.5 && w.holdScore > 17).length`. -/
def majorHolderCount (l : List Record) : ℕ :=
  (l.filter (fun w => decide ((1 : ℚ) / 2 < w.holdingPercent) &&
    decide ((17 : ℚ) < w.holdScore))).length

/-- Source: `Math.min(majorHolders.length, 20)`. -/
def majorHoldersComponent (l : List Record) : ℚ := (min (majorHolderCount l) 20 : ℕ)

/-- Source: `coinIQ = Math.floor(walletIQComponent + smartMoneyComponent + majorHoldersComponent)`. -/
def overallScore (l : List Record) : ℤ :=
  jsFloor (walletIQComponent l + smartMoneyComponent l + majorHoldersComponent l)

/-- Source: the win-rate mean `analyzedHolders.reduce((sum, w) => sum + (parseFloat(w.winRate) || 0), 0) / analyzedHolders.length`. -/
def avgWinRate (l : List Record) : ℚ :=
  (l.map (fun w => parseFloatOr0 w.winRate)).sum / (l.length : ℚ)

/-- Source: the rating ladder `coinIQ >= 80 ? ELITE : coinIQ >= 60 ? SMART : coinIQ >= 40 ? AVERAGE : DEGEN`. -/
def ratingOf (s : ℤ) : String :=
  if 80 ≤ s then "ELITE" else if 60 ≤ s then "SMART"
  else if 40 ≤ s then "AVERAGE" else "DEGEN"

/-- What `setCoinScore` receives. `smartMoney` and `avgWinRate` hold the
numeric values of the `toFixed(1)` strings the code stores. -/
structure CoinScore where
  overall : ℤ
  smartMoney : ℚ
  avgWinRate : ℚ
  rating : String
deriving DecidableEq

/-- Source: part_013 lines 303-342 — a non-empty row list is aggregated with
the weighted formula; an empty one yields score 0 and rating UNKNOWN. -/
def computeCoinScore (l : List Record) : CoinScore :=
  if l.isEmpty then ⟨0, 0, 0, "UNKNOWN"⟩
  else
    ⟨overallScore l, jsToFixed 1 (smartMoneyPercent l), jsToFixed 1 (avgWinRate l),
     ratingOf (overallScore l)⟩

/-! ## The `analyzeToken` pipeline (part_013 lines 101-356)

The pipeline is modelled as a function of the outcomes of its external
collaborators. Cancellation arrives through `stopScanning`, which itself
clears the countdown interval and sets the abort signal; within `analyzeToken`
the signal is observed by the `aborted` predicate checked at the head of each
scoring-loop iteration. The fusion-derived `coinScore` of the privacy branch
is outside the scope of every claim and is left as `none`. -/

/-- Outcome of the token-info stage (cache hit, `fetchTokenInfoByAddress` or
`fetchTokenInfoBySymbol`). `notFound` is the fetcher throwing
`Error('Token not found')` — the fetchers never resolve to a falsy value. -/
inductive TokenLookup where
  | found
  | notFound

/-- Outcome of `getFusedSignal` in the privacy branch: a successful signal, a
response with `success: false`, or a thrown error. -/
inductive FusionOutcome where
  | ok
  | failed
  | thrown

/-- Outcome of the `fetchTokenHolders` / `getTokenSupply` stage: a holder list
with the total supply, an empty-or-null holder list, or a thrown fetch error
(absorbed by the catch at part_013 line 293). -/
inductive HoldersLookup where
  | ok (holders : List Holder) (totalSupply : ℚ)
  | empty
  | fetchError

/-- The collaborator outcomes one `analyzeToken` run observes. -/
structure Env where
  privacyMode : Bool
  fusion : FusionOutcome
  cachedHolders : Option (List Record)
  tokenLookup : TokenLookup
  holdersLookup : HoldersLookup
  aborted : ℕ → Bool
  outcomes : ℕ → CallOutcome

/-- The externally observable end state of one `analyzeToken` run:
the error message (if `setError` was called with a non-empty message), whether
the run itself cleared the countdown interval it started, the value passed to
`setWalletAnalysis` (if reached), the computed coin score (if reached), and
the list written to the holders cache (if reached). -/
structure RunEnd where
  errorMsg : Option String
  intervalCleared : Bool
  walletAnalysis : Option (List Record)
  coinScore : Option CoinScore
  cacheWritten : Option (List Record)
deriving DecidableEq

/-- Source: `analyzeToken` (part_013 lines 101-356), traced branch by branch.

The countdown interval is started at lines 114-117. A token-not-found result
reaches the run as a thrown `Error('Token not found')`: both token fetchers
(src/api.js lines 23-89) throw on an empty pair list and re-throw from their
own catch, never resolving to a falsy value, so the `if (!tokenInfo)` branch
at part_013 lines 137-142 is unreachable dead code. The throw propagates to
the outer catch (line 344), which sets the error message, and the run falls
through to lines 353-355, clearing the interval (`intervalCleared := true`).
The empty-holder branch (lines 210-215), by contrast, `return`s from inside
the `try` without touching `countdownIntervalRef`, ending the run with the
interval still active (`intervalCleared := false`); the privacy branches
(lines 161, 183, 191) and every path that falls through to lines 353-355 do
clear it. A mid-loop cancellation throw is caught by the inner catch
(line 293), after which the `signal.aborted` re-check at line 299 returns
early: no error message, no wallet analysis, no cache write — and the
interval is cleared by `stopScanning` (the cancellation source), not by the
run itself. On the ordinary successful path the liquidity-pool rows and the
scored rows are concatenated, sorted by descending iq, written to the cache,
handed to `setWalletAnalysis` and aggregated. -/
def analyzeToken (env : Env) : RunEnd :=
  match env.tokenLookup with
  | .notFound => ⟨some "Token not found", true, none, none, none⟩
  | .found =>
    if env.privacyMode then
      match env.fusion with
      | .ok => ⟨none, true, some [], none, none⟩
      | .failed => ⟨some "Failed to generate fusion signal", true, none, none, none⟩
      | .thrown => ⟨some "Failed to analyze token in privacy mode", true, none, none, none⟩
    else
      match env.cachedHolders with
      | some cached => ⟨none, true, some cached, some (computeCoinScore cached), none⟩
      | none =>
        match env.holdersLookup with
        | .empty => ⟨some "Failed to retrieve token holders", false, none, none, none⟩
        | .fetchError => ⟨none, true, some [], some (computeCoinScore []), none⟩
        | .ok hs supply =>
          let c := classifyHolders supply (hs.take 30)
          match (runLoop env.aborted env.outcomes supply 0 c.normalWallets).1 with
          | none => ⟨none, false, none, none, none⟩
          | some recs =>
            let all := sortByIqDesc (c.liquidityPools ++ recs)
            ⟨none, true, some all, some (computeCoinScore all), some all⟩

/-! ## Concrete inputs used by the claim theorems -/

/-- First record of the literal composite-formula case: iq 80, holding 2%. -/
def c1rec1 : Record :=
  { address := "w1", iq := 80, winRate := "0.0", trades := 0, tradesScore := 0,
    portfolio := 0, pattern := "Unknown", holdScore := 0, holdingAmount := 0,
    holdingPercent := 2, firstBuyTime := none }

/-- Second record of the literal composite-formula case: iq 40, holding 1%. -/
def c1rec2 : Record :=
  { address := "w2", iq := 40, winRate := "0.0", trades := 0, tradesScore := 0,
    portfolio := 0, pattern := "Unknown", holdScore := 0, holdingAmount := 0,
    holdingPercent := 1, firstBuyTime := none }

/-- A holder whose scoring call is rate-limited in the C2 scenario. -/
def c2holder1 : Holder := ⟨"walletA", 100⟩

/-- The holder scored after the rate-limited one in the C2 scenario. -/
def c2holder2 : Holder := ⟨"walletB", 50⟩

/-- A well-formed successful backend body for the C2 scenario. -/
def c2data : WalletData :=
  { iq := 90, winRate := "55.5", trades := 10, tradesScore := 5, portfolio := 3,
    pattern := "SNIPER", holdScore := 20, firstBuyTime := some 123 }

/-- Outcome schedule for the C2 scenario: wallet 0 receives HTTP 429 with
`resets_at` 1700000000, wallet 1 a successful response. -/
def c2outcomes : ℕ → CallOutcome := fun i =>
  if i = 0 then .resp (.rateLimited 1700000000 50) else .resp (.ok c2data)

/-- An environment whose token lookup fails. -/
def envTokenNotFound : Env :=
  ⟨false, .ok, none, .notFound, .empty, fun _ => false, fun _ => .thrown⟩

/-- An environment whose holder lookup returns an empty set. -/
def envEmptyHolders : Env :=
  ⟨false, .ok, none, .found, .empty, fun _ => false, fun _ => .thrown⟩

/-- A cancellation-free single-holder environment that completes normally. -/
def envSuccess : Env :=
  ⟨false, .ok, none, .found, .ok [⟨"walletA", 100⟩] 1000, fun _ => false,
   fun _ => .resp (.ok c2data)⟩

/-- A backend body whose iq field is falsy (0 or missing). -/
def c9data : WalletData :=
  { iq := 0, winRate := "60.0", trades := 4, tradesScore := 2, portfolio := 1,
    pattern := "HOLDER", holdScore := 9, firstBuyTime := none }

/-- A liquidity-pool row (iq 0) sitting first in amount-descending input. -/
def c10lp : Record := lpRecord 100 ⟨"pool", 40⟩

/-- An ordinary scored row (iq 90) sitting second in amount-descending input. -/
def c10w : Record :=
  { address := "wX", iq := 90, winRate := "50.0", trades := 3, tradesScore := 1,
    portfolio := 2, pattern := "SNIPER", holdScore := 18, holdingAmount := 10,
    holdingPercent := 10, firstBuyTime := none }

/-! ## Helper lemmas -/

/-- `jsFloor` implements the mathematical floor on ℚ. -/
theorem jsFloor_eq_floor (x : ℚ) : jsFloor x = ⌊x⌋ := Rat.floor_def.symm

/-- Claim C6: a cache `get` at distance at most `ttl` from the prior `set` of
the same key returns exactly the payload that was set (and the cache-or-fetch
pattern then does not invoke the fetch collaborator), while a `get` whose age
exceeds `ttl` returns absent and deletes the entry from the store. -/
theorem claim6_cache_ttl {α : Type} (c : Cache α) (key : String) (d : α) (ttl t0 t1 : ℚ) :
    (t1 - t0 ≤ ttl →
      (getCachedData (setCachedData c key d t0) key ttl t1).1 = some d ∧
      ∀ fresh : α, (lookupWithCache (setCachedData c key d t0) key ttl t1 fresh).2.1 = false) ∧
    (ttl < t1 - t0 →
      (getCachedData (setCachedData c key d t0) key ttl t1).1 = none ∧
      (getCachedData (setCachedData c key d t0) key ttl t1).2 key = none) := by
  constructor
  · intro hage
    have hcond : ¬ ttl < t1 - t0 := not_lt.mpr hage
    constructor
    · simp [getCachedData, setCachedData, hcond]
    · intro fresh
      simp [lookupWithCache, getCachedData, setCachedData, hcond]
  · intro hage
    simp [getCachedData, setCachedData, hage]

/-- Witness for C6 at a concrete store: a get 10ms after the set with TTL 60
hits, a get 100ms after misses and evicts. -/
theorem claim6_cache_ttl_witness :
    ((10 : ℚ) - 0 ≤ 60 ∧
      (getCachedData (setCachedData (fun _ => none) "token_info:X" 5 0) "token_info:X" 60 10).1 =
        some 5) ∧
    ((60 : ℚ) < 100 - 0 ∧
      (getCachedData (setCachedData (fun _ => none) "token_info:X" 5 0) "token_info:X" 60 100).1 =
        (none : Option ℕ)) :=
  ⟨⟨by norm_num,
    ((claim6_cache_ttl (fun _ => none) "token_info:X" (5 : ℕ) 60 0 10).1 (by norm_num)).1⟩,
   ⟨by norm_num,
    ((claim6_cache_ttl (fun _ => none) "token_info:X" (5 : ℕ) 60 0 100).2 (by norm_num)).1⟩⟩

/-- Claim C7: the classifier partitions the holder list — the two bucket sizes
sum to the input length, and the combined addresses of the two buckets are a
permutation of the input addresses, so no holder is dropped or duplicated. -/
theorem claim7_classifier_partitions (supply : ℚ) (hs : List Holder) :
    (classifyHolders supply hs).liquidityPools.length +
      (classifyHolders supply hs).normalWallets.length = hs.length ∧
    List.Perm
      ((classifyHolders supply hs).liquidityPools.map Record.address ++
        (classifyHolders supply hs).normalWallets.map Holder.address)
      (hs.map Holder.address) := by
  induction hs with
  | nil => simp [classifyHolders]
  | cons h t ih =>
    obtain ⟨ihlen, ihperm⟩ := ih
    cases hc : isLiquidityPool supply h
    · refine ⟨?_, ?_⟩
      · simp only [classifyHolders, hc, Bool.false_eq_true, if_false, List.length_cons]
        omega
      · simp only [classifyHolders, hc, Bool.false_eq_true, if_false, List.map_cons]
        exact List.perm_middle.trans (ihperm.cons h.address)
    · refine ⟨?_, ?_⟩
      · simp only [classifyHolders, hc, if_true, List.length_cons]
        omega
      · simp only [classifyHolders, hc, if_true, List.map_cons, List.cons_append]
        exact (ihperm.cons h.address)

/-- Claim C8: the liquidity-pool threshold is inclusive. In general a holder
is bucketed as liquidity-pool exactly when its rounded supply percentage is at
least 25; concretely, 2500 of 10000 gives exactly 25.00% and lands in the
liquidity-pool bucket as a synthetic record with iq 0 and pattern
LIQUIDITY POOL, while 2499 of 10000 gives 24.99% and stays an ordinary wallet
headed to the scoring loop. -/
theorem claim8_lp_threshold_inclusive :
    (∀ (supply : ℚ) (h : Holder),
      isLiquidityPool supply h = true ↔ (25 : ℚ) ≤ holdingPercentOf supply h) ∧
    holdingPercentOf 10000 ⟨"lp", 2500⟩ = 25 ∧
    classifyHolders 10000 [⟨"lp", 2500⟩] = ⟨[lpRecord 10000 ⟨"lp", 2500⟩], []⟩ ∧
    (lpRecord 10000 ⟨"lp", 2500⟩).iq = 0 ∧
    (lpRecord 10000 ⟨"lp", 2500⟩).pattern = "LIQUIDITY POOL" ∧
    holdingPercentOf 10000 ⟨"w", 2499⟩ = 2499 / 100 ∧
    classifyHolders 10000 [⟨"w", 2499⟩] = ⟨[], [⟨"w", 2499⟩]⟩ := by
  have h25 : holdingPercentOf 10000 ⟨"lp", 2500⟩ = 25 := by
    norm_num [holdingPercentOf, jsToFixed, jsFloor]
  have h2499 : holdingPercentOf 10000 ⟨"w", 2499⟩ = 2499 / 100 := by
    norm_num [holdingPercentOf, jsToFixed, jsFloor]
  refine ⟨fun supply h => by simp [isLiquidityPool], h25, ?_, rfl, rfl, h2499, ?_⟩
  · simp [classifyHolders, isLiquidityPool, h25]
  · simp only [classifyHolders, isLiquidityPool, h2499]
    norm_num

/-- Claim C9: a successful backend response with a falsy iq field (0 or
missing) produces an ordinary record with iq 50; no ordinary-wallet record can
carry iq 0 regardless of how its scoring call went; the synthetic
liquidity-pool record is the only record with iq 0. -/
theorem claim9_iq_zero_defaulted (supply : ℚ) (h : Holder) (d : WalletData) (o : CallOutcome) :
    (d.iq = 0 →
      (mkScoredRecord supply h (analyzeWalletViaBackend (.ok d)).result).iq = 50) ∧
    (recordForOutcome supply h o).iq ≠ 0 ∧
    (lpRecord supply h).iq = 0 := by
  refine ⟨?_, ?_, rfl⟩
  · intro h0
    simp [mkScoredRecord, analyzeWalletViaBackend, jsOrQ, h0]
  · cases o with
    | thrown =>
      simp [recordForOutcome, degradedRecord]
    | resp r =>
      cases r with
      | ok d2 =>
        by_cases h2 : d2.iq = 0
        · simp [recordForOutcome, mkScoredRecord, analyzeWalletViaBackend, jsOrQ, h2]
        · simp [recordForOutcome, mkScoredRecord, analyzeWalletViaBackend, jsOrQ, h2]
      | rateLimited a b =>
        simp [recordForOutcome, mkScoredRecord, analyzeWalletViaBackend,
          defaultErrorResult, jsOrQ]
      | httpError s =>
        simp [recordForOutcome, mkScoredRecord, analyzeWalletViaBackend,
          defaultErrorResult, jsOrQ]
      | networkError =>
        simp [recordForOutcome, mkScoredRecord, analyzeWalletViaBackend,
          defaultErrorResult, jsOrQ]

/-- Witness for C9: at a concrete response whose iq field is 0 the produced
record carries iq 50. -/
theorem claim9_iq_zero_defaulted_witness :
    c9data.iq = 0 ∧
    (mkScoredRecord 1000 ⟨"walletA", 100⟩
      (analyzeWalletViaBackend (.ok c9data)).result).iq = 50 :=
  ⟨rfl, (claim9_iq_zero_defaulted 1000 ⟨"walletA", 100⟩ c9data .thrown).1 rfl⟩

/-- Without cancellation the loop runs to completion: every index is called
and every wallet yields its row. -/
theorem runLoop_noabort (outc : ℕ → CallOutcome) (s : ℚ) (ws : List Holder) : ∀ i : ℕ,
    runLoop (fun _ => false) outc s i ws =
      (some (scoredFrom outc s i ws), List.range' i ws.length) := by
  induction ws with
  | nil => intro i; simp [runLoop, scoredFrom]
  | cons h t ih =>
    intro i
    simp [runLoop, scoredFrom, ih (i + 1), List.range'_succ]

/-- A cancellation-free pass yields one row per wallet. -/
theorem scoredFrom_length (outc : ℕ → CallOutcome) (s : ℚ) (ws : List Holder) : ∀ i : ℕ,
    (scoredFrom outc s i ws).length = ws.length := by
  induction ws with
  | nil => intro i; simp [scoredFrom]
  | cons h t ih => intro i; simp [scoredFrom, ih (i + 1)]

/-- The j-th row of a cancellation-free pass is the row for the j-th wallet
under its own call outcome. -/
theorem scoredFrom_getElem (outc : ℕ → CallOutcome) (s : ℚ) (ws : List Holder) :
    ∀ (i j : ℕ) (h : Holder), ws[j]? = some h →
      (scoredFrom outc s i ws)[j]? = some (recordForOutcome s h (outc (i + j))) := by
  induction ws with
  | nil => intro i j h hj; simp at hj
  | cons hd t ih =>
    intro i j h hj
    cases j with
    | zero =>
      simp at hj
      subst hj
      simp [scoredFrom]
    | succ j =>
      simp only [List.getElem?_cons_succ] at hj
      have := ih (i + 1) j h hj
      simpa [scoredFrom, Nat.add_assoc, Nat.add_comm 1 j] using this

/-- Every failure outcome — a rate-limited, HTTP-error or network-error
response (all absorbed inside `analyzeWalletViaBackend`) as well as a throw
landing in the per-wallet catch — produces exactly the degraded row. -/
theorem recordForOutcome_failure (s : ℚ) (h : Holder) (o : CallOutcome)
    (hf : isFailureOutcome o = true) :
    recordForOutcome s h o = degradedRecord s h := by
  cases o with
  | thrown => rfl
  | resp r =>
    cases r with
    | ok d => simp [isFailureOutcome] at hf
    | rateLimited a b =>
      simp [recordForOutcome, mkScoredRecord, analyzeWalletViaBackend,
        defaultErrorResult, degradedRecord, jsOrQ, jsOrS]
    | httpError st =>
      simp [recordForOutcome, mkScoredRecord, analyzeWalletViaBackend,
        defaultErrorResult, degradedRecord, jsOrQ, jsOrS]
    | networkError =>
      simp [recordForOutcome, mkScoredRecord, analyzeWalletViaBackend,
        defaultErrorResult, degradedRecord, jsOrQ, jsOrS]

/-- Claim C4: with cancellation absent, per-wallet failures do not abort the
loop — the run completes with exactly one row per input wallet, every index is
called, each failed wallet gets the degraded row (iq 50, winRate "0.0",
pattern ERROR, zero trade and hold sub-scores, and its own holding amount and
percent), and every remaining wallet is still processed. -/
theorem claim4_failure_degrades_and_continues (supply : ℚ) (outc : ℕ → CallOutcome)
    (ws : List Holder) :
    (runLoop (fun _ => false) outc supply 0 ws).1 = some (scoredFrom outc supply 0 ws) ∧
    (runLoop (fun _ => false) outc supply 0 ws).2 = List.range ws.length ∧
    (scoredFrom outc supply 0 ws).length = ws.length ∧
    (∀ (j : ℕ) (h : Holder), ws[j]? = some h → isFailureOutcome (outc j) = true →
      (scoredFrom outc supply 0 ws)[j]? = some (degradedRecord supply h)) ∧
    ∀ h : Holder,
      (degradedRecord supply h).iq = 50 ∧ (degradedRecord supply h).winRate = "0.0" ∧
      (degradedRecord supply h).pattern = "ERROR" ∧
      (degradedRecord supply h).tradesScore = 0 ∧ (degradedRecord supply h).holdScore = 0 ∧
      (degradedRecord supply h).holdingAmount = jsToFixed 0 h.amount ∧
      (degradedRecord supply h).holdingPercent = holdingPercentOf supply h := by
  refine ⟨?_, ?_, scoredFrom_length outc supply ws 0, ?_, ?_⟩
  · rw [runLoop_noabort]
  · rw [runLoop_noabort]
    exact (List.range_eq_range' ws.length).symm ▸ rfl
  · intro j h hj hf
    have := scoredFrom_getElem outc supply ws 0 j h hj
    rwa [Nat.zero_add, recordForOutcome_failure supply h _ hf] at this
  · intro h
    exact ⟨rfl, rfl, rfl, rfl, rfl, rfl, rfl⟩

/-- Witness for C4: a two-wallet run whose first call fails with a network
error still yields the degraded first row (and, per the other conjuncts, a
full-length result). -/
theorem claim4_failure_degrades_and_continues_witness :
    ([c2holder1, c2holder2][0]? = some c2holder1) ∧
    (isFailureOutcome ((fun i => if i = 0 then CallOutcome.resp .networkError
      else CallOutcome.resp (.ok c2data)) 0) = true) ∧
    (scoredFrom (fun i => if i = 0 then CallOutcome.resp .networkError
      else CallOutcome.resp (.ok c2data)) 1000 0 [c2holder1, c2holder2])[0]? =
      some (degradedRecord 1000 c2holder1) :=
  ⟨rfl, rfl,
    (claim4_failure_degrades_and_continues 1000
      (fun i => if i = 0 then CallOutcome.resp .networkError
        else CallOutcome.resp (.ok c2data)) [c2holder1, c2holder2]).2.2.2.1
      0 c2holder1 rfl rfl⟩

/-- The indices called by a loop whose cancellation flag turns on from check
index `k` are exactly the in-range indices below `k`. -/
theorem runLoop_cancel_calls (k : ℕ) (outc : ℕ → CallOutcome) (s : ℚ) (ws : List Holder) :
    ∀ i : ℕ, (runLoop (fun j => decide (k ≤ j)) outc s i ws).2 =
      List.range' i (min (k - i) ws.length) := by
  induction ws with
  | nil => intro i; simp [runLoop]
  | cons h t ih =>
    intro i
    by_cases hik : k ≤ i
    · have : k - i = 0 := Nat.sub_eq_zero_of_le hik
      simp [runLoop, hik, this]
    · have hlt : i < k := Nat.lt_of_not_le hik
      have hki : k - i = (k - (i + 1)) + 1 := by omega
      simp only [runLoop, decide_eq_true_eq, hik, if_false, ih (i + 1), List.length_cons]
      rw [hki, Nat.succ_min_succ, List.range'_succ]

/-- A loop whose cancellation flag turns on at an index inside the wallet
range aborts: the accumulated rows are discarded. -/
theorem runLoop_cancel_none (k : ℕ) (outc : ℕ → CallOutcome) (s : ℚ) (ws : List Holder) :
    ∀ i : ℕ, i ≤ k → k < i + ws.length →
      (runLoop (fun j => decide (k ≤ j)) outc s i ws).1 = none := by
  induction ws with
  | nil => intro i h1 h2; simp at h2; omega
  | cons h t ih =>
    intro i h1 h2
    by_cases hik : k ≤ i
    · simp [runLoop, hik]
    · have hlt : i < k := Nat.lt_of_not_le hik
      have h2a : k < (i + 1) + t.length := by simp at h2; omega
      have := ih (i + 1) hlt h2a
      simp [runLoop, hik, this]

/-- Claim C5: if the cancellation flag is set after the k-th call completes
(so the flag reads true from check index k on), the run aborts and the calls
actually issued are exactly those for wallets 1..k — the flag is checked at
the head of each iteration, before that wallet's external call, and no call is
issued for wallets k+1..n. -/
theorem claim5_cancel_checked_before_call (k : ℕ) (supply : ℚ) (outc : ℕ → CallOutcome)
    (ws : List Holder) (hk : k < ws.length) :
    (runLoop (fun i => decide (k ≤ i)) outc supply 0 ws).1 = none ∧
    (runLoop (fun i => decide (k ≤ i)) outc supply 0 ws).2 = List.range k := by
  constructor
  · exact runLoop_cancel_none k outc supply ws 0 (Nat.zero_le k) (by omega)
  · rw [runLoop_cancel_calls k outc supply ws 0, Nat.sub_zero,
      Nat.min_eq_left (Nat.le_of_lt hk), List.range_eq_range']

/-- Witness for C5: cancelling after the first of two wallets issues only the
call for index 0. -/
theorem claim5_cancel_checked_before_call_witness :
    1 < [c2holder1, c2holder2].length ∧
    (runLoop (fun i => decide (1 ≤ i)) c2outcomes 1000 0 [c2holder1, c2holder2]).1 = none ∧
    (runLoop (fun i => decide (1 ≤ i)) c2outcomes 1000 0 [c2holder1, c2holder2]).2 =
      List.range 1 :=
  ⟨by simp,
   (claim5_cancel_checked_before_call 1 1000 c2outcomes [c2holder1, c2holder2] (by simp)).1,
   (claim5_cancel_checked_before_call 1 1000 c2outcomes [c2holder1, c2holder2] (by simp)).2⟩

/-- Claim C2 fails on the code: a RateLimited (HTTP 429) response does not
abort the run. The throw inside `analyzeWalletViaBackend` is swallowed by the
function's own catch-all, which returns the degraded ERROR object (the reset
timestamp surfaces only through the alert); the scoring loop then continues —
here wallet 1 is rate-limited, yet wallet 2 is still called and genuinely
scored (iq 90, pattern SNIPER). -/
theorem claim2_rate_limited_run_continues :
    (analyzeWalletViaBackend (.rateLimited 1700000000 50)).result = defaultErrorResult ∧
    (analyzeWalletViaBackend (.rateLimited 1700000000 50)).alertResetAt = some 1700000000 ∧
    (runLoop (fun _ => false) c2outcomes 1000 0 [c2holder1, c2holder2]).2 = [0, 1] ∧
    (runLoop (fun _ => false) c2outcomes 1000 0 [c2holder1, c2holder2]).1 =
      some [degradedRecord 1000 c2holder1, mkScoredRecord 1000 c2holder2 c2data] ∧
    (mkScoredRecord 1000 c2holder2 c2data).iq = 90 ∧
    (mkScoredRecord 1000 c2holder2 c2data).pattern = "SNIPER" := by
  have h0 : recordForOutcome 1000 c2holder1 (c2outcomes 0) = degradedRecord 1000 c2holder1 :=
    recordForOutcome_failure 1000 c2holder1 _ rfl
  have hres : (analyzeWalletViaBackend (.ok c2data)).result = c2data := by
    simp [analyzeWalletViaBackend, c2data, jsOrQ, jsOrS]
  have h1 : recordForOutcome 1000 c2holder2 (c2outcomes 1) =
      mkScoredRecord 1000 c2holder2 c2data := by
    show mkScoredRecord 1000 c2holder2 (analyzeWalletViaBackend (.ok c2data)).result = _
    rw [hres]
  refine ⟨rfl, rfl, ?_, ?_, ?_, rfl⟩
  · rw [runLoop_noabort]
    rfl
  · rw [runLoop_noabort]
    simp [scoredFrom, h0, h1]
  · norm_num [mkScoredRecord, c2data, jsOrQ]

/-- Inserting preserves the multiset of rows. -/
theorem insertDesc_perm (r : Record) (l : List Record) :
    List.Perm (insertDesc r l) (r :: l) := by
  induction l with
  | nil => simp [insertDesc]
  | cons x xs ih =>
    simp only [insertDesc]
    split
    · exact List.Perm.refl _
    · exact (List.Perm.cons x ih).trans (List.Perm.swap r x xs)

/-- The sorted list is a permutation of the input. -/
theorem sortByIqDesc_perm (l : List Record) : List.Perm (sortByIqDesc l) l := by
  induction l with
  | nil => simp [sortByIqDesc]
  | cons x xs ih => exact (insertDesc_perm x (sortByIqDesc xs)).trans (List.Perm.cons x ih)

/-- Inserting into a non-increasing list keeps it non-increasing. -/
theorem insertDesc_pairwise (r : Record) (l : List Record)
    (h : List.Pairwise (fun a b => b.iq ≤ a.iq) l) :
    List.Pairwise (fun a b => b.iq ≤ a.iq) (insertDesc r l) := by
  induction l with
  | nil => simp [insertDesc]
  | cons x xs ih =>
    cases h with
    | cons hx hxs =>
      simp only [insertDesc]
      split
      · rename_i hle
        refine List.Pairwise.cons ?_ (List.Pairwise.cons hx hxs)
        intro b hb
        rcases List.mem_cons.mp hb with rfl | hb
        · exact hle
        · exact le_trans (hx _ hb) hle
      · rename_i hlt
        push_neg at hlt
        refine List.Pairwise.cons ?_ (ih hxs)
        intro b hb
        rcases List.mem_cons.mp ((insertDesc_perm r xs).mem_iff.mp hb) with rfl | hb
        · exact le_of_lt hlt
        · exact hx _ hb

/-- The sort output is in non-increasing iq order. -/
theorem sortByIqDesc_pairwise (l : List Record) :
    List.Pairwise (fun a b => b.iq ≤ a.iq) (sortByIqDesc l) := by
  induction l with
  | nil => simp [sortByIqDesc]
  | cons x xs ih => exact insertDesc_pairwise x _ ih

/-- A cancellation-free wallet-mode run over a fresh (non-cached) holder set
ends with the combined, iq-sorted list written to the cache and handed to
`setWalletAnalysis`, the interval cleared and the coin score computed. -/
theorem analyzeToken_success (hs : List Holder) (supply : ℚ) (outc : ℕ → CallOutcome)
    (fu : FusionOutcome) :
    analyzeToken ⟨false, fu, none, .found, .ok hs supply, fun _ => false, outc⟩ =
      ⟨none, true,
       some (sortByIqDesc ((classifyHolders supply (hs.take 30)).liquidityPools ++
         scoredFrom outc supply 0 (classifyHolders supply (hs.take 30)).normalWallets)),
       some (computeCoinScore
         (sortByIqDesc ((classifyHolders supply (hs.take 30)).liquidityPools ++
           scoredFrom outc supply 0 (classifyHolders supply (hs.take 30)).normalWallets))),
       some (sortByIqDesc ((classifyHolders supply (hs.take 30)).liquidityPools ++
         scoredFrom outc supply 0 (classifyHolders supply (hs.take 30)).normalWallets))⟩ := by
  simp only [analyzeToken, runLoop_noabort, Bool.false_eq_true, if_false]

/-- Claim C3 fails on the code at the empty-holder abort: the branch at
part_013 lines 210-215 returns without clearing the countdown interval
started at lines 114-117, leaving the periodic tick active. The
token-not-found terminal, by contrast, does clear the interval — the fetchers
throw rather than return null, so that abort runs through the outer catch and
falls through to lines 353-355 — and so does an ordinary successful run. -/
theorem claim3_abort_paths_leave_timer_running :
    (analyzeToken envTokenNotFound).errorMsg = some "Token not found" ∧
    (analyzeToken envTokenNotFound).intervalCleared = true ∧
    (analyzeToken envEmptyHolders).errorMsg = some "Failed to retrieve token holders" ∧
    (analyzeToken envEmptyHolders).intervalCleared = false ∧
    (analyzeToken envSuccess).intervalCleared = true := by
  refine ⟨rfl, rfl, rfl, rfl, ?_⟩
  have := analyzeToken_success [⟨"walletA", 100⟩] 1000 (fun _ => .resp (.ok c2data)) .ok
  rw [show envSuccess = ⟨false, .ok, none, .found, .ok [⟨"walletA", 100⟩] 1000,
    fun _ => false, fun _ => .resp (.ok c2data)⟩ from rfl, this]

/-- Claim C10: before being cached and handed onward, the combined record
list of a completed non-cached run is `sortByIqDesc` of liquidity-pool rows
plus scored rows; that sort is a permutation of its input in non-increasing
iq order; when liquidity-pool rows are exactly the iq-0 rows they occupy a
suffix of the output; and a concrete amount-descending input is reordered, so
input order is not preserved. -/
theorem claim10_records_sorted_decreasing_iq (l : List Record) :
    List.Perm (sortByIqDesc l) l ∧
    List.Pairwise (fun a b => b.iq ≤ a.iq) (sortByIqDesc l) ∧
    (∀ (hs : List Holder) (supply : ℚ) (outc : ℕ → CallOutcome) (fu : FusionOutcome),
      (analyzeToken ⟨false, fu, none, .found, .ok hs supply, fun _ => false, outc⟩).cacheWritten =
        some (sortByIqDesc ((classifyHolders supply (hs.take 30)).liquidityPools ++
          scoredFrom outc supply 0 (classifyHolders supply (hs.take 30)).normalWallets)) ∧
      (analyzeToken ⟨false, fu, none, .found, .ok hs supply, fun _ => false, outc⟩).walletAnalysis =
        (analyzeToken ⟨false, fu, none, .found, .ok hs supply, fun _ => false, outc⟩).cacheWritten) ∧
    ((∀ r ∈ l, r.pattern = "LIQUIDITY POOL" → r.iq = 0) →
     (∀ r ∈ l, r.pattern ≠ "LIQUIDITY POOL" → 0 < r.iq) →
      ∀ (i j : ℕ), i ≤ j → ∀ ri rj : Record,
        (sortByIqDesc l)[i]? = some ri → (sortByIqDesc l)[j]? = some rj →
        ri.pattern = "LIQUIDITY POOL" → rj.pattern = "LIQUIDITY POOL") ∧
    sortByIqDesc [c10lp, c10w] = [c10w, c10lp] ∧
    c10lp ≠ c10w := by
  refine ⟨sortByIqDesc_perm l, sortByIqDesc_pairwise l, ?_, ?_, ?_, ?_⟩
  · intro hs supply outc fu
    rw [analyzeToken_success]
    exact ⟨rfl, rfl⟩
  · intro h0 h1 i j hij ri rj hri hrj hlp
    by_contra hnot
    have hmi : ri ∈ l := (sortByIqDesc_perm l).mem_iff.mp (List.getElem?_mem hri)
    have hmj : rj ∈ l := (sortByIqDesc_perm l).mem_iff.mp (List.getElem?_mem hrj)
    have hiq0 : ri.iq = 0 := h0 ri hmi hlp
    have hiqpos : 0 < rj.iq := h1 rj hmj hnot
    have hi : i < (sortByIqDesc l).length := (List.getElem?_eq_some.mp hri).1
    have hj : j < (sortByIqDesc l).length := (List.getElem?_eq_some.mp hrj).1
    rcases Nat.lt_or_ge i j with hij2 | hij2
    · have hpw := List.pairwise_iff_get.mp (sortByIqDesc_pairwise l) ⟨i, hi⟩ ⟨j, hj⟩ hij2
      have hgi : (sortByIqDesc l).get ⟨i, hi⟩ = ri := by
        have := List.getElem?_eq_getElem hi
        rw [hri] at this
        simpa [List.get_eq_getElem] using this.symm
      have hgj : (sortByIqDesc l).get ⟨j, hj⟩ = rj := by
        have := List.getElem?_eq_getElem hj
        rw [hrj] at this
        simpa [List.get_eq_getElem] using this.symm
      rw [hgi, hgj, hiq0] at hpw
      exact absurd (lt_of_lt_of_le hiqpos hpw) (lt_irrefl 0)
    · have hije : i = j := le_antisymm hij hij2
      subst hije
      rw [hri] at hrj
      cases hrj
      rw [hiq0] at hiqpos
      exact absurd hiqpos (lt_irrefl 0)
  · have hiq : c10w.iq ≤ c10lp.iq ↔ False := by
      norm_num [c10w, c10lp, lpRecord]
    simp [sortByIqDesc, insertDesc, hiq]
  · intro h
    have : c10lp.iq = c10w.iq := by rw [h]
    norm_num [c10lp, c10w, lpRecord] at this

/-- Witness for C10's conditioned suffix property: on the concrete two-row
input (pool row iq 0, wallet row iq 90) the sorted output has the
liquidity-pool row last — position 1 is LIQUIDITY POOL. -/
theorem claim10_records_sorted_decreasing_iq_witness :
    (∀ r ∈ [c10lp, c10w], r.pattern = "LIQUIDITY POOL" → r.iq = 0) ∧
    (∀ r ∈ [c10lp, c10w], r.pattern ≠ "LIQUIDITY POOL" → 0 < r.iq) ∧
    (1 ≤ 1) ∧
    ((sortByIqDesc [c10lp, c10w])[1]? = some c10lp) ∧
    c10lp.pattern = "LIQUIDITY POOL" := by
  have hsort : sortByIqDesc [c10lp, c10w] = [c10w, c10lp] :=
    (claim10_records_sorted_decreasing_iq []).2.2.2.2.1
  have h0 : ∀ r ∈ [c10lp, c10w], r.pattern = "LIQUIDITY POOL" → r.iq = 0 := by
    intro r hr
    rcases List.mem_cons.mp hr with rfl | hr
    · intro _; rfl
    · rcases List.mem_cons.mp hr with rfl | hr
      · intro hpat
        exact absurd hpat (by simp [c10w])
      · simp at hr
  have h1 : ∀ r ∈ [c10lp, c10w], r.pattern ≠ "LIQUIDITY POOL" → 0 < r.iq := by
    intro r hr
    rcases List.mem_cons.mp hr with rfl | hr
    · intro hpat
      exact absurd rfl hpat
    · rcases List.mem_cons.mp hr with rfl | hr
      · intro _
        norm_num [c10w]
      · simp at hr
  refine ⟨h0, h1, le_refl 1, by rw [hsort]; rfl, ?_⟩
  exact (claim10_records_sorted_decreasing_iq [c10lp, c10w]).2.2.2.1 h0 h1 1 1 (le_refl 1)
    c10lp c10lp (by rw [hsort]; rfl) (by rw [hsort]; rfl) rfl

/-- The default win-rate string parses to 0. -/
theorem parseFloatOr0_default : parseFloatOr0 "0.0" = 0 := by
  have hstep : parseFloatOr0 "0.0" =
      (digitsVal ['0'] : ℚ) + (digitsVal ['0'] : ℚ) / 10 ^ (['0'] : List Char).length := rfl
  rw [hstep]
  norm_num [digitsVal, show ('0' : Char).toNat - 48 = 0 from rfl]

/-- Claim C1: for every non-empty record list the overall score is the floor
of `weightedAvgIQ * 0.5 + smartMoneyPercent * 0.3 + min(majorHolderCount, 20)`
and the rating bucket is applied to it; on the literal two-record case
(iq 80 at 2%, iq 40 at 1%, no record passing the major-holder test) the
components are 200/3, 100/3, 1 smart-money record of 2 (50% → 15), 0, the
overall score is floor(100/3 + 15) = 48 and the rating is AVERAGE. -/
theorem claim1_composite_formula :
    (∀ l : List Record, l ≠ [] →
      (computeCoinScore l).overall =
        ⌊weightedAvgIQ l * (1 / 2) + smartMoneyPercent l * (3 / 10) +
          ((min (majorHolderCount l) 20 : ℕ) : ℚ)⌋ ∧
      (computeCoinScore l).rating = ratingOf (computeCoinScore l).overall) ∧
    weightedAvgIQ [c1rec1, c1rec2] = 200 / 3 ∧
    walletIQComponent [c1rec1, c1rec2] = 100 / 3 ∧
    smartMoneyCount [c1rec1, c1rec2] = 1 ∧
    smartMoneyPercent [c1rec1, c1rec2] = 50 ∧
    smartMoneyComponent [c1rec1, c1rec2] = 15 ∧
    majorHoldersComponent [c1rec1, c1rec2] = 0 ∧
    overallScore [c1rec1, c1rec2] = 48 ∧
    computeCoinScore [c1rec1, c1rec2] = ⟨48, 50, 0, "AVERAGE"⟩ := by
  have havg : weightedAvgIQ [c1rec1, c1rec2] = 200 / 3 := by
    simp only [weightedAvgIQ, totalHoldingPercent, weightedIQSum, List.map_cons,
      List.map_nil, List.sum_cons, List.sum_nil, c1rec1, c1rec2]
    norm_num
  have hsmc : smartMoneyCount [c1rec1, c1rec2] = 1 := by
    simp only [smartMoneyCount, List.filter, c1rec1, c1rec2, decide_eq_true_eq]
    norm_num
  have hsmp : smartMoneyPercent [c1rec1, c1rec2] = 50 := by
    simp only [smartMoneyPercent, hsmc, List.length_cons, List.length_nil]
    norm_num
  have hmaj : majorHolderCount [c1rec1, c1rec2] = 0 := by
    simp only [majorHolderCount, List.filter, c1rec1, c1rec2, Bool.and_eq_true,
      decide_eq_true_eq]
    norm_num
  have hmajc : majorHoldersComponent [c1rec1, c1rec2] = 0 := by
    simp [majorHoldersComponent, hmaj]
  have hwiq : walletIQComponent [c1rec1, c1rec2] = 100 / 3 := by
    rw [walletIQComponent, havg]
    norm_num
  have hover : overallScore [c1rec1, c1rec2] = 48 := by
    rw [overallScore, hwiq, hmajc, smartMoneyComponent, hsmp]
    norm_num [jsFloor]
  have hwr : avgWinRate [c1rec1, c1rec2] = 0 := by
    simp only [avgWinRate, List.map_cons, List.map_nil, List.sum_cons, List.sum_nil,
      c1rec1, c1rec2, parseFloatOr0_default, List.length_cons, List.length_nil]
    norm_num
  refine ⟨?_, havg, hwiq, hsmc, hsmp, ?_, hmajc, hover, ?_⟩
  · intro l hl
    have hne : l.isEmpty = false := by
      simpa [List.isEmpty_iff] using hl
    constructor
    · simp only [computeCoinScore, hne, Bool.false_eq_true, if_false, overallScore,
        jsFloor_eq_floor, walletIQComponent, smartMoneyComponent, majorHoldersComponent]
    · simp only [computeCoinScore, hne, Bool.false_eq_true, if_false]
  · rw [smartMoneyComponent, hsmp]
    norm_num
  · have h50 : jsToFixed 1 (smartMoneyPercent [c1rec1, c1rec2]) = 50 := by
      rw [hsmp]
      norm_num [jsToFixed, jsFloor]
    have h0 : jsToFixed 1 (avgWinRate [c1rec1, c1rec2]) = 0 := by
      rw [hwr]
      norm_num [jsToFixed, jsFloor]
    have hne : ([c1rec1, c1rec2] : List Record).isEmpty = false := by simp
    rw [computeCoinScore]
    rw [hne]
    simp only [Bool.false_eq_true, if_false, hover, h50, h0]
    have : ratingOf 48 = "AVERAGE" := by norm_num [ratingOf]
    rw [this]

/-- Witness for C1's general clause at the literal two-record list. -/
theorem claim1_composite_formula_witness :
    ([c1rec1, c1rec2] ≠ ([] : List Record)) ∧
    ((computeCoinScore [c1rec1, c1rec2]).overall =
      ⌊weightedAvgIQ [c1rec1, c1rec2] * (1 / 2) +
        smartMoneyPercent [c1rec1, c1rec2] * (3 / 10) +
        ((min (majorHolderCount [c1rec1, c1rec2]) 20 : ℕ) : ℚ)⌋ ∧
     (computeCoinScore [c1rec1, c1rec2]).rating =
       ratingOf (computeCoinScore [c1rec1, c1rec2]).overall) :=
  ⟨by simp, claim1_composite_formula.1 [c1rec1, c1rec2] (by simp)⟩

end Orb
